import Mathlib

/-!
Shallow embedding of `scale_and_slide.py`: an image pyramid builder
(`get_scaled_images`), a sliding-window crop extractor (`sliding_window`),
and their composition (`get_image_chunks`), together with proofs of the
specified properties.
-/

namespace ScaleAndSlide

/-- Window dimensions `(width, height)`, the `window_dim` tuple of the source. -/
structure Dim where
  width : Nat
  height : Nat
deriving DecidableEq, Repr

/-- An image: integer `width` and `height` plus pixel data, modelled as a
total function from coordinates to a pixel value.  This is the PIL
`Image.Image` collaborator as the spec describes it: a raster with integer
`width`, `height` and pixel data, supporting `resize` and `crop`. -/
structure Img where
  width : Nat
  height : Nat
  pix : Nat → Nat → Nat

/-- The `crop_bounds` list `[left_bound, upper_bound, right_bound, lower_bound]`
of the source, as a structure of integers. -/
structure CropBounds where
  left : Int
  upper : Int
  right : Int
  lower : Int
deriving DecidableEq, Repr

/-- Modelled from the spec: the external Image Resampler collaborator's
`crop(left, top, right, bottom)` primitive (PIL `Image.crop`).  The result has
size `(right - left, bottom - top)`; pixels are read from the source region,
out-of-range coordinates giving the fill value 0. -/
def Img.crop (image : Img) (left upper right lower : Int) : Img :=
  { width := (right - left).toNat
    height := (lower - upper).toNat
    pix := fun a b =>
      let u : Int := left + a
      let v : Int := upper + b
      if 0 ≤ u ∧ u < image.width ∧ 0 ≤ v ∧ v < image.height then
        image.pix u.toNat v.toNat
      else 0 }

/-- Modelled from the spec: the external Image Resampler collaborator's
`resize(newWidth, newHeight)` primitive (PIL `Image.resize`).  The exact
resampling algorithm is not specified by the core; nearest-neighbour sampling
is used here.  No claim depends on the resampled pixel values. -/
def Img.resize (image : Img) (w h : Nat) : Img :=
  { width := w
    height := h
    pix := fun a b => image.pix (a * image.width / w) (b * image.height / h) }

/-- Python `int(q)` on a real value: truncation toward zero. -/
def pytrunc (q : ℚ) : Int :=
  if 0 ≤ q then ⌊q⌋ else -⌊-q⌋

/-- Python `range(0, stop, step)` for an integer `step`: for positive `step`
the positions `0, step, 2*step, ...` strictly below `stop`; for negative
`step` (counting down from 0 with `stop ≥ 0`) the empty sequence.
`step = 0` raises in Python and is guarded separately by the caller. -/
def pyRange (stop : Nat) (step : Int) : List Nat :=
  if 0 < step then
    (List.range ((stop + step.toNat - 1) / step.toNat)).map (fun k => k * step.toNat)
  else []

/-- `get_scaled_images(img, count, increment)` from the source: for `i` in
`range(count - 1)` compute `resize_amount = increment ** (count - 1 - i)`,
resize to `(int(width * resize_amount), int(height * resize_amount))`, then
append the original image.  Python float arithmetic is modelled by exact
rationals. -/
def get_scaled_images (img : Img) (count : Int) (increment : ℚ) : List Img :=
  ((List.range (count - 1).toNat).map (fun i : Nat =>
    let resize_amount : ℚ := increment ^ (count - 1 - (i : Int)).toNat
    img.resize (pytrunc ((img.width : ℚ) * resize_amount)).toNat
               (pytrunc ((img.height : ℚ) * resize_amount)).toNat))
  ++ [img]

/-- Errors raised by `sliding_window`: the `ValueError` for a window larger
than the image (carrying the requested window size and the image size), and
Python's `range` error for a zero step. -/
inductive SlideError where
  | sizeMismatch (window_dim : Dim) (image_size : Nat × Nat)
  | zeroStep
deriving DecidableEq, Repr

/-- The crop-bound computation of one loop iteration of `sliding_window` at
window position `(x, y)`: the naive box `(x, y, x + w, y + h)` with the
vertical then horizontal overflow adjustments of the source. -/
def crop_bounds (image : Img) (window_dim : Dim) (x y : Nat) : CropBounds :=
  let left_bound : Int := x
  let right_bound : Int := left_bound + window_dim.width
  let upper_bound : Int := y
  let lower_bound : Int := upper_bound + window_dim.height
  -- adjust bounds in cases of overflow
  let upper_bound : Int :=
    if (image.height : Int) < lower_bound then (image.height : Int) - window_dim.height
    else upper_bound
  let lower_bound : Int :=
    if (image.height : Int) < lower_bound then (image.height : Int) else lower_bound
  let left_bound : Int :=
    if (image.width : Int) < right_bound then (image.width : Int) - window_dim.width
    else left_bound
  let right_bound : Int :=
    if (image.width : Int) < right_bound then (image.width : Int) else right_bound
  ⟨left_bound, upper_bound, right_bound, lower_bound⟩

/-- One loop iteration of `sliding_window`: the `pict = [crop, crop_bounds]`
pair appended to `pictures` at window position `(x, y)`. -/
def make_pict (image : Img) (window_dim : Dim) (x y : Nat) : Img × CropBounds :=
  let b := crop_bounds image window_dim x y
  (image.crop b.left b.upper b.right b.lower, b)

/-- The inner `for x in range(0, image.width, stride)` loop of
`sliding_window` over the remaining x positions: emit the pict at each `x`,
breaking right after the first pict whose `right_bound == image.width`. -/
def slide_row (image : Img) (window_dim : Dim) (y : Nat) :
    List Nat → List (Img × CropBounds)
  | [] => []
  | x :: xs =>
    let pict := make_pict image window_dim x y
    if pict.2.right = (image.width : Int) then [pict]
    else pict :: slide_row image window_dim y xs

/-- The full `pictures` list built by the two nested loops of
`sliding_window`. -/
def sliding_window_pictures (image : Img) (window_dim : Dim) (stride : Int) :
    List (Img × CropBounds) :=
  (pyRange image.height stride).flatMap
    (fun y => slide_row image window_dim y (pyRange image.width stride))

/-- `sliding_window(image, window_dim, stride)` from the source: raise
`ValueError` when the window exceeds the image, run the nested loops, and
return `[im for [im, dims] in pictures]`. -/
def sliding_window (image : Img) (window_dim : Dim) (stride : Int) :
    Except SlideError (List Img) :=
  if window_dim.width > image.width ∨ window_dim.height > image.height then
    .error (.sizeMismatch window_dim (image.width, image.height))
  else if stride = 0 then .error .zeroStep
  else .ok ((sliding_window_pictures image window_dim stride).map (fun p => p.1))

/-- The `for im in scaled_images: crops.append(sliding_window(...))` loop of
`get_image_chunks`; a raised error aborts the whole loop. -/
def crops_loop (window_dim : Dim) (stride : Int) :
    List Img → Except SlideError (List (List Img))
  | [] => .ok []
  | im :: rest =>
    match sliding_window im window_dim stride with
    | .error e => .error e
    | .ok c =>
      match crops_loop window_dim stride rest with
      | .error e => .error e
      | .ok cs => .ok (c :: cs)

/-- `get_image_chunks(img, window_dim, stride, num_rescales, rescale_increment)`
from the source: build the pyramid, then slide a window across each level. -/
def get_image_chunks (img : Img) (window_dim : Dim) (stride : Int)
    (num_rescales : Int) (rescale_increment : ℚ) :
    Except SlideError (List (List Img)) :=
  let scaled_images := get_scaled_images img num_rescales rescale_increment
  crops_loop window_dim stride scaled_images

/-- Prefix of a list up to and including the first element satisfying `p`
(the whole list when no element does); used to express the row `break`. -/
def takeThrough (p : α → Bool) : List α → List α
  | [] => []
  | x :: xs => if p x then [x] else x :: takeThrough p xs

/-! ### Basic lemmas about the crop-bound computation -/

lemma crop_bounds_def (image : Img) (wd : Dim) (x y : Nat) :
    crop_bounds image wd x y =
      ⟨if (image.width : Int) < x + wd.width then (image.width : Int) - wd.width else x,
       if (image.height : Int) < y + wd.height then (image.height : Int) - wd.height else y,
       if (image.width : Int) < x + wd.width then (image.width : Int) else x + wd.width,
       if (image.height : Int) < y + wd.height then (image.height : Int) else y + wd.height⟩ :=
  rfl

/-- Every box produced by one loop iteration has exactly the window size and
lies inside the image (given the precondition that the window fits). -/
lemma crop_bounds_box (image : Img) (wd : Dim)
    (hw : wd.width ≤ image.width) (hh : wd.height ≤ image.height) (x y : Nat) :
    (crop_bounds image wd x y).right = (crop_bounds image wd x y).left + wd.width ∧
    (crop_bounds image wd x y).lower = (crop_bounds image wd x y).upper + wd.height ∧
    0 ≤ (crop_bounds image wd x y).left ∧
    (crop_bounds image wd x y).right ≤ (image.width : Int) ∧
    0 ≤ (crop_bounds image wd x y).upper ∧
    (crop_bounds image wd x y).lower ≤ (image.height : Int) := by
  rw [crop_bounds_def]
  dsimp only
  refine ⟨?_, ?_, ?_, ?_, ?_, ?_⟩ <;> split_ifs <;> omega

lemma make_pict_fst (image : Img) (wd : Dim) (x y : Nat) :
    (make_pict image wd x y).1 =
      image.crop (make_pict image wd x y).2.left (make_pict image wd x y).2.upper
        (make_pict image wd x y).2.right (make_pict image wd x y).2.lower :=
  rfl

lemma make_pict_snd (image : Img) (wd : Dim) (x y : Nat) :
    (make_pict image wd x y).2 = crop_bounds image wd x y :=
  rfl

lemma crop_width (image : Img) (l u r lo : Int) :
    (image.crop l u r lo).width = (r - l).toNat :=
  rfl

lemma crop_height (image : Img) (l u r lo : Int) :
    (image.crop l u r lo).height = (lo - u).toNat :=
  rfl

/-! ### Membership in the pictures list -/

lemma mem_slide_row {image : Img} {wd : Dim} {y : Nat} :
    ∀ {xs : List Nat} {p}, p ∈ slide_row image wd y xs →
      ∃ x ∈ xs, p = make_pict image wd x y := by
  intro xs
  induction xs with
  | nil => intro p hp; simp [slide_row] at hp
  | cons x xs ih =>
    intro p hp
    rw [slide_row] at hp
    by_cases hbr : (make_pict image wd x y).2.right = (image.width : Int)
    · rw [if_pos hbr] at hp
      simp only [List.mem_singleton] at hp
      exact ⟨x, List.mem_cons_self x xs, hp⟩
    · rw [if_neg hbr] at hp
      rcases List.mem_cons.mp hp with h | h
      · exact ⟨x, List.mem_cons_self x xs, h⟩
      · obtain ⟨x', hx', hp'⟩ := ih h
        exact ⟨x', List.mem_cons_of_mem x hx', hp'⟩

lemma mem_sliding_window_pictures {image : Img} {wd : Dim} {stride : Int} {p}
    (hp : p ∈ sliding_window_pictures image wd stride) :
    ∃ y ∈ pyRange image.height stride, ∃ x ∈ pyRange image.width stride,
      p = make_pict image wd x y := by
  rw [sliding_window_pictures] at hp
  obtain ⟨y, hy, hrow⟩ := List.mem_flatMap.mp hp
  obtain ⟨x, hx, hpx⟩ := mem_slide_row hrow
  exact ⟨y, hy, x, hx, hpx⟩

/-- When the window fits and the stride is nonzero, `sliding_window` succeeds
and returns the first components of the pictures list. -/
lemma sliding_window_ok (image : Img) (wd : Dim) (stride : Int)
    (hw : wd.width ≤ image.width) (hh : wd.height ≤ image.height) (hs : stride ≠ 0) :
    sliding_window image wd stride =
      .ok ((sliding_window_pictures image wd stride).map (fun p => p.1)) := by
  rw [sliding_window, if_neg (by omega), if_neg hs]

/-! ### Claim C1: every crop has the window size and an in-bounds box -/

/-- Claim C1: for every image, window dimensions fitting inside the image, and
stride at least 1, `sliding_window` succeeds and every crop it returns has
size exactly `window_dim`; every bounding box it computes satisfies
`right = left + width ≤ image.width`, `lower = upper + height ≤ image.height`,
`0 ≤ left`, `0 ≤ upper`, and the crop is exactly the image cropped at that
box — no smaller or out-of-bounds crop is ever produced. -/
theorem sliding_window_crops_exact_size_inbounds (image : Img) (wd : Dim) (stride : Int)
    (hw : wd.width ≤ image.width) (hh : wd.height ≤ image.height) (hs : 1 ≤ stride) :
    (∃ crops, sliding_window image wd stride = .ok crops ∧
       crops = (sliding_window_pictures image wd stride).map (fun p => p.1) ∧
       ∀ c ∈ crops, c.width = wd.width ∧ c.height = wd.height) ∧
    ∀ p ∈ sliding_window_pictures image wd stride,
      p.2.right = p.2.left + wd.width ∧ p.2.lower = p.2.upper + wd.height ∧
      0 ≤ p.2.left ∧ p.2.right ≤ (image.width : Int) ∧
      0 ≤ p.2.upper ∧ p.2.lower ≤ (image.height : Int) ∧
      p.1.width = wd.width ∧ p.1.height = wd.height ∧
      p.1 = image.crop p.2.left p.2.upper p.2.right p.2.lower := by
  have hpict : ∀ p ∈ sliding_window_pictures image wd stride,
      p.2.right = p.2.left + wd.width ∧ p.2.lower = p.2.upper + wd.height ∧
      0 ≤ p.2.left ∧ p.2.right ≤ (image.width : Int) ∧
      0 ≤ p.2.upper ∧ p.2.lower ≤ (image.height : Int) ∧
      p.1.width = wd.width ∧ p.1.height = wd.height ∧
      p.1 = image.crop p.2.left p.2.upper p.2.right p.2.lower := by
    intro p hp
    obtain ⟨y, _, x, _, rfl⟩ := mem_sliding_window_pictures hp
    obtain ⟨h1, h2, h3, h4, h5, h6⟩ := crop_bounds_box image wd hw hh x y
    rw [make_pict_snd]
    refine ⟨h1, h2, h3, h4, h5, h6, ?_, ?_, make_pict_fst image wd x y⟩
    · rw [make_pict_fst, crop_width, make_pict_snd, h1]; omega
    · rw [make_pict_fst, crop_height, make_pict_snd, h2]; omega
  refine ⟨⟨(sliding_window_pictures image wd stride).map (fun p => p.1),
    sliding_window_ok image wd stride hw hh (by omega), rfl, ?_⟩, hpict⟩
  intro c hc
  obtain ⟨p, hp, rfl⟩ := List.mem_map.mp hc
  obtain ⟨_, _, _, _, _, _, hcw, hch, _⟩ := hpict p hp
  exact ⟨hcw, hch⟩

/-- Witness for C1 at a concrete input. -/
theorem sliding_window_crops_exact_size_inbounds_witness :
    ((2 : Nat) ≤ 3 ∧ (2 : Nat) ≤ 3 ∧ (1 : Int) ≤ 1) ∧
    ((∃ crops, sliding_window ⟨3, 3, fun a b => a + b⟩ ⟨2, 2⟩ 1 = .ok crops ∧
       crops = (sliding_window_pictures ⟨3, 3, fun a b => a + b⟩ ⟨2, 2⟩ 1).map (fun p => p.1) ∧
       ∀ c ∈ crops, c.width = 2 ∧ c.height = 2) ∧
    ∀ p ∈ sliding_window_pictures ⟨3, 3, fun a b => a + b⟩ ⟨2, 2⟩ 1,
      p.2.right = p.2.left + 2 ∧ p.2.lower = p.2.upper + 2 ∧
      0 ≤ p.2.left ∧ p.2.right ≤ (3 : Int) ∧
      0 ≤ p.2.upper ∧ p.2.lower ≤ (3 : Int) ∧
      p.1.width = 2 ∧ p.1.height = 2 ∧
      p.1 = (⟨3, 3, fun a b => a + b⟩ : Img).crop p.2.left p.2.upper p.2.right p.2.lower) :=
  ⟨⟨by decide, by decide, by decide⟩,
    sliding_window_crops_exact_size_inbounds ⟨3, 3, fun a b => a + b⟩ ⟨2, 2⟩ 1
      (by decide) (by decide) (by decide)⟩

/-! ### Claim C3: row break on the x axis, no break on the y axis -/

lemma make_pict_eq (image : Img) (wd : Dim) (x y : Nat) :
    make_pict image wd x y =
      (image.crop (crop_bounds image wd x y).left (crop_bounds image wd x y).upper
        (crop_bounds image wd x y).right (crop_bounds image wd x y).lower,
       crop_bounds image wd x y) :=
  rfl

/-- The break condition `right_bound == image.width` holds exactly when the
naive right edge `x + width` reaches or passes the image edge. -/
lemma make_pict_right_eq_iff (image : Img) (wd : Dim) (x y : Nat) :
    (make_pict image wd x y).2.right = (image.width : Int) ↔
      (image.width : Int) ≤ x + wd.width := by
  rw [make_pict_snd, crop_bounds_def]
  dsimp only
  split_ifs <;> omega

/-- The inner loop with its `break` emits exactly the picts at the x
positions up to and including the first one whose (possibly clamped) right
bound hits the image edge. -/
lemma slide_row_eq_takeThrough (image : Img) (wd : Dim) (y : Nat) (xs : List Nat) :
    slide_row image wd y xs =
      (takeThrough (fun x : Nat => decide ((image.width : Int) ≤ (x : Int) + wd.width)) xs).map
        (fun x => make_pict image wd x y) := by
  induction xs with
  | nil => rfl
  | cons x xs ih =>
    rw [slide_row, takeThrough]
    by_cases h : (image.width : Int) ≤ x + wd.width
    · rw [if_pos ((make_pict_right_eq_iff image wd x y).mpr h),
        if_pos (by simpa using h)]
      rfl
    · rw [if_neg (fun hc => h ((make_pict_right_eq_iff image wd x y).mp hc)),
        if_neg (by simpa using h), List.map_cons, ih]

/-- Two rows whose naive bottom edge reaches or passes the image edge clamp
to the same boxes, hence produce identical picts. -/
lemma slide_row_bottom_saturated (image : Img) (wd : Dim) {y₁ y₂ : Nat}
    (h₁ : image.height ≤ y₁ + wd.height) (h₂ : image.height ≤ y₂ + wd.height)
    (xs : List Nat) :
    slide_row image wd y₁ xs = slide_row image wd y₂ xs := by
  have hb : ∀ x, crop_bounds image wd x y₁ = crop_bounds image wd x y₂ := by
    intro x
    rw [crop_bounds_def, crop_bounds_def]
    have hu : (if (image.height : Int) < y₁ + wd.height then
          (image.height : Int) - wd.height else y₁) =
        (if (image.height : Int) < y₂ + wd.height then
          (image.height : Int) - wd.height else y₂) := by
      split_ifs <;> omega
    have hl : (if (image.height : Int) < y₁ + wd.height then
          (image.height : Int) else y₁ + wd.height) =
        (if (image.height : Int) < y₂ + wd.height then
          (image.height : Int) else y₂ + wd.height) := by
      split_ifs <;> omega
    rw [hu, hl]
  induction xs with
  | nil => rfl
  | cons x xs ih =>
    rw [slide_row, slide_row, make_pict_eq, make_pict_eq, hb x, ih]

/-- Claim C3: with the window fitting and stride at least 1, `sliding_window`
emits, for every `y` in `0, stride, 2*stride, ... < image.height`, the full
row of picts at `x` positions `0, stride, 2*stride, ...` cut right after the
first pict whose right bound equals `image.width` (the row `break`); there is
no analogous cut across rows, and any two rows whose naive bottom edge
reaches the image edge are identical, so bottom-clamped rows repeat. -/
theorem sliding_window_row_break_no_column_break (image : Img) (wd : Dim) (stride : Int)
    (hw : wd.width ≤ image.width) (hh : wd.height ≤ image.height) (hs : 1 ≤ stride) :
    sliding_window image wd stride =
      .ok ((pyRange image.height stride).flatMap (fun y =>
        (takeThrough (fun x : Nat => decide ((image.width : Int) ≤ (x : Int) + wd.width))
          (pyRange image.width stride)).map (fun x => (make_pict image wd x y).1))) ∧
    ∀ y₁ ∈ pyRange image.height stride, ∀ y₂ ∈ pyRange image.height stride,
      image.height ≤ y₁ + wd.height → image.height ≤ y₂ + wd.height →
      slide_row image wd y₁ (pyRange image.width stride) =
        slide_row image wd y₂ (pyRange image.width stride) := by
  constructor
  · rw [sliding_window_ok image wd stride hw hh (by omega), sliding_window_pictures,
      List.map_flatMap]
    refine congrArg Except.ok (List.flatMap_congr fun y hy => ?_)
    rw [slide_row_eq_takeThrough, List.map_map]
    rfl
  · intro y₁ _ y₂ _ h₁ h₂
    exact slide_row_bottom_saturated image wd h₁ h₂ _

/-- Witness for C3 at a concrete input (the bottom-clamped rows at
`y = 100` for a 150-high image with window height 100 fall under the
second conjunct). -/
theorem sliding_window_row_break_no_column_break_witness :
    ((100 : Nat) ≤ 150 ∧ (100 : Nat) ≤ 150 ∧ (1 : Int) ≤ 60) ∧
    (sliding_window ⟨150, 150, fun a b => a * b⟩ ⟨100, 100⟩ 60 =
      .ok ((pyRange 150 60).flatMap (fun y =>
        (takeThrough (fun x : Nat => decide ((150 : Int) ≤ (x : Int) + 100)) (pyRange 150 60)).map
          (fun x => (make_pict ⟨150, 150, fun a b => a * b⟩ ⟨100, 100⟩ x y).1))) ∧
    ∀ y₁ ∈ pyRange 150 60, ∀ y₂ ∈ pyRange 150 60,
      (150 : Nat) ≤ y₁ + 100 → (150 : Nat) ≤ y₂ + 100 →
      slide_row ⟨150, 150, fun a b => a * b⟩ ⟨100, 100⟩ y₁ (pyRange 150 60) =
        slide_row ⟨150, 150, fun a b => a * b⟩ ⟨100, 100⟩ y₂ (pyRange 150 60)) :=
  ⟨⟨by decide, by decide, by decide⟩,
    sliding_window_row_break_no_column_break ⟨150, 150, fun a b => a * b⟩ ⟨100, 100⟩ 60
      (by decide) (by decide) (by decide)⟩

/-! ### Claim C4: the size-mismatch error, exactly when the window is too big -/

/-- Claim C4: `sliding_window` fails with the size-mismatch error — carrying the
requested window size and the image size — exactly when the window exceeds
the image in width or height; and whenever the window fits and the stride is
at least 1, no error is raised and a crop list is returned. -/
theorem sliding_window_size_mismatch_iff (image : Img) (wd : Dim) (stride : Int) :
    (sliding_window image wd stride =
        .error (.sizeMismatch wd (image.width, image.height)) ↔
      image.width < wd.width ∨ image.height < wd.height) ∧
    (wd.width ≤ image.width → wd.height ≤ image.height → 1 ≤ stride →
      ∃ crops, sliding_window image wd stride = .ok crops) := by
  constructor
  · constructor
    · intro h
      by_contra hc
      push_neg at hc
      rw [sliding_window, if_neg (by omega)] at h
      by_cases hs : stride = 0
      · rw [if_pos hs] at h
        exact SlideError.noConfusion (Except.error.inj h)
      · rw [if_neg hs] at h
        exact Except.noConfusion h
    · intro h
      rw [sliding_window, if_pos (by omega)]
  · intro hw hh hs
    exact ⟨_, sliding_window_ok image wd stride hw hh (by omega)⟩

/-- Witness for C4: a too-wide window raises the size-mismatch error; a
fitting window returns a crop list. -/
theorem sliding_window_size_mismatch_iff_witness :
    sliding_window ⟨150, 150, fun a _ => a⟩ ⟨200, 100⟩ 1 =
        .error (.sizeMismatch ⟨200, 100⟩ (150, 150)) ∧
    ∃ crops, sliding_window ⟨150, 150, fun a _ => a⟩ ⟨100, 100⟩ 100 = .ok crops :=
  ⟨(sliding_window_size_mismatch_iff ⟨150, 150, fun a _ => a⟩ ⟨200, 100⟩ 1).1.mpr
      (Or.inl (by decide)),
    (sliding_window_size_mismatch_iff ⟨150, 150, fun a _ => a⟩ ⟨100, 100⟩ 100).2
      (by decide) (by decide) (by decide)⟩

/-! ### Claim C10: negative stride gives an empty crop list, no error -/

/-- Claim C10: when the window fits and the stride is negative, the range-based
traversal yields no positions, so `sliding_window` terminates with the empty
crop list and raises no error. -/
theorem sliding_window_negative_stride_empty (image : Img) (wd : Dim) (stride : Int)
    (hw : wd.width ≤ image.width) (hh : wd.height ≤ image.height) (hs : stride < 0) :
    sliding_window image wd stride = .ok [] := by
  rw [sliding_window_ok image wd stride hw hh (by omega), sliding_window_pictures,
    pyRange, if_neg (by omega)]
  rfl

/-- Witness for C10 at a concrete input. -/
theorem sliding_window_negative_stride_empty_witness :
    ((100 : Nat) ≤ 150 ∧ (100 : Nat) ≤ 150 ∧ (-2 : Int) < 0) ∧
    sliding_window ⟨150, 150, fun a b => a + b⟩ ⟨100, 100⟩ (-2) = .ok [] :=
  ⟨⟨by decide, by decide, by decide⟩,
    sliding_window_negative_stride_empty ⟨150, 150, fun a b => a + b⟩ ⟨100, 100⟩ (-2)
      (by decide) (by decide) (by decide)⟩

/-! ### Claim C6: the 150x150 clamping example -/

/-- Claim C6: on a 150x150 image with a 100x100 window and stride 100,
`sliding_window` returns exactly 4 crops, in this order, at the boxes
`(0,0,100,100)`, `(50,0,150,100)`, `(0,50,100,150)`, `(50,50,150,150)`:
right/bottom clamping triggers and each clamped row stops after the clamped
crop. -/
theorem sliding_window_150x150_example (pix : Nat → Nat → Nat) :
    sliding_window ⟨150, 150, pix⟩ ⟨100, 100⟩ 100 =
      .ok [(⟨150, 150, pix⟩ : Img).crop 0 0 100 100,
           (⟨150, 150, pix⟩ : Img).crop 50 0 150 100,
           (⟨150, 150, pix⟩ : Img).crop 0 50 100 150,
           (⟨150, 150, pix⟩ : Img).crop 50 50 150 150] ∧
    (sliding_window_pictures ⟨150, 150, pix⟩ ⟨100, 100⟩ 100).map (fun p => p.2) =
      [⟨0, 0, 100, 100⟩, ⟨50, 0, 150, 100⟩, ⟨0, 50, 100, 150⟩, ⟨50, 50, 150, 150⟩] := by
  constructor
  · simp [sliding_window, sliding_window_pictures, pyRange, slide_row, make_pict,
      crop_bounds, List.range_succ]
  · simp [sliding_window_pictures, pyRange, slide_row, make_pict, crop_bounds,
      List.range_succ]

/-! ### Pyramid helper lemmas -/

lemma resize_width (image : Img) (w h : Nat) : (image.resize w h).width = w := rfl

lemma resize_height (image : Img) (w h : Nat) : (image.resize w h).height = h := rfl

lemma pytrunc_eq_floor {q : ℚ} (h : 0 ≤ q) : pytrunc q = ⌊q⌋ := if_pos h

lemma get_scaled_images_length (img : Img) (count : Int) (inc : ℚ) :
    (get_scaled_images img count inc).length = (count - 1).toNat + 1 := by
  simp [get_scaled_images]

lemma get_scaled_images_getLast? (img : Img) (count : Int) (inc : ℚ) :
    (get_scaled_images img count inc).getLast? = some img := by
  rw [get_scaled_images, List.getLast?_concat]

lemma get_scaled_images_getElem?_lt {img : Img} {count : Int} {inc : ℚ} {i : Nat}
    (hi : i < (count - 1).toNat) :
    (get_scaled_images img count inc)[i]? =
      some (img.resize
        ((pytrunc ((img.width : ℚ) * inc ^ (count - 1 - (i : Int)).toNat)).toNat)
        ((pytrunc ((img.height : ℚ) * inc ^ (count - 1 - (i : Int)).toNat)).toNat)) := by
  rw [get_scaled_images, List.getElem?_append, if_pos (by simpa using hi)]
  rw [List.getElem?_map, List.getElem?_range hi]
  rfl

lemma get_scaled_images_getElem?_last {img : Img} {count : Int} {inc : ℚ} :
    (get_scaled_images img count inc)[(count - 1).toNat]? = some img := by
  rw [get_scaled_images, List.getElem?_append, if_neg (by simp)]
  simp

/-- The truncated scaled width is antitone in the exponent (for a shrink
factor in `(0, 1]`) and never exceeds the unscaled width. -/
lemma pytrunc_scaled_le_scaled {inc : ℚ} (h0 : 0 < inc) (h1 : inc ≤ 1)
    (W : Nat) {a b : Nat} (hab : b ≤ a) :
    (pytrunc ((W : ℚ) * inc ^ a)).toNat ≤ (pytrunc ((W : ℚ) * inc ^ b)).toNat := by
  have hpa : (0 : ℚ) ≤ (W : ℚ) * inc ^ a := by positivity
  have hpb : (0 : ℚ) ≤ (W : ℚ) * inc ^ b := by positivity
  rw [pytrunc_eq_floor hpa, pytrunc_eq_floor hpb]
  have hpow : inc ^ a ≤ inc ^ b := pow_le_pow_of_le_one h0.le h1 hab
  have hmul : (W : ℚ) * inc ^ a ≤ (W : ℚ) * inc ^ b :=
    mul_le_mul_of_nonneg_left hpow (by positivity)
  have := Int.floor_le_floor hmul
  omega

lemma pytrunc_scaled_le_self {inc : ℚ} (h0 : 0 < inc) (h1 : inc ≤ 1)
    (W : Nat) (a : Nat) :
    (pytrunc ((W : ℚ) * inc ^ a)).toNat ≤ W := by
  have hpa : (0 : ℚ) ≤ (W : ℚ) * inc ^ a := by positivity
  rw [pytrunc_eq_floor hpa]
  have hpow : inc ^ a ≤ 1 := pow_le_one₀ h0.le h1
  have hmul : (W : ℚ) * inc ^ a ≤ (W : ℚ) := by nlinarith
  have h2 : ⌊(W : ℚ) * inc ^ a⌋ ≤ ⌊(W : ℚ)⌋ := Int.floor_le_floor hmul
  rw [Int.floor_natCast] at h2
  omega

/-- The truncated scaled width is strictly below a positive width for a
shrink factor strictly between 0 and 1 raised to a positive power. -/
lemma pytrunc_scaled_lt_self {inc : ℚ} (h0 : 0 < inc) (h1 : inc < 1)
    {W : Nat} (hW : 0 < W) {a : Nat} (ha : a ≠ 0) :
    (pytrunc ((W : ℚ) * inc ^ a)).toNat < W := by
  have hpa : (0 : ℚ) ≤ (W : ℚ) * inc ^ a := by positivity
  rw [pytrunc_eq_floor hpa]
  have hpow : inc ^ a < 1 := pow_lt_one₀ h0.le h1 ha
  have hmul : (W : ℚ) * inc ^ a < (W : ℚ) := by
    have hWQ : (0 : ℚ) < (W : ℚ) := by exact_mod_cast hW
    nlinarith
  have h2 : ⌊(W : ℚ) * inc ^ a⌋ < (W : Int) := Int.floor_lt.mpr (by exact_mod_cast hmul)
  omega

/-! ### Claim C2: pyramid length, original last, exactly once -/

/-- Claim C2: for a positive-size image, `count ≥ 1` and a shrink factor in
`(0, 1)`, the pyramid has exactly `count` images, its last element is the
unmodified original, the original appears only as the last element, and for
`count = 1` the result is exactly `[img]`. -/
theorem get_scaled_images_count_original_last (img : Img) (count : Int) (inc : ℚ)
    (hc : 1 ≤ count) (hW : 0 < img.width) (hH : 0 < img.height)
    (h0 : 0 < inc) (h1 : inc < 1) :
    (get_scaled_images img count inc).length = count.toNat ∧
    (get_scaled_images img count inc).getLast? = some img ∧
    (∀ (i : Nat) (level : Img), (get_scaled_images img count inc)[i]? = some level →
      level = img → i = count.toNat - 1) ∧
    (count = 1 → get_scaled_images img count inc = [img]) := by
  have hlen := get_scaled_images_length img count inc
  refine ⟨by rw [hlen]; omega, get_scaled_images_getLast? img count inc, ?_, ?_⟩
  · intro i level hsome heq
    by_contra hne
    have hilen : i < (get_scaled_images img count inc).length := by
      by_contra hge
      rw [List.getElem?_eq_none (by omega)] at hsome
      exact Option.noConfusion hsome
    have hi2 : i < (count - 1).toNat := by omega
    rw [get_scaled_images_getElem?_lt hi2] at hsome
    have hlevel := Option.some.inj hsome
    have hwidth : level.width < img.width := by
      rw [← hlevel, resize_width]
      exact pytrunc_scaled_lt_self h0 h1 hW (by omega)
    rw [heq] at hwidth
    omega
  · intro hc1
    subst hc1
    rw [get_scaled_images]
    norm_num

/-- Witness for C2 at a concrete input. -/
theorem get_scaled_images_count_original_last_witness :
    ((1 : Int) ≤ 3 ∧ (0 : Nat) < 150 ∧ (0 : Nat) < 150 ∧
      (0 : ℚ) < 1 / 2 ∧ (1 / 2 : ℚ) < 1) ∧
    ((get_scaled_images ⟨150, 150, fun a b => a + b⟩ 3 (1 / 2)).length = (3 : Int).toNat ∧
    (get_scaled_images ⟨150, 150, fun a b => a + b⟩ 3 (1 / 2)).getLast? =
      some ⟨150, 150, fun a b => a + b⟩ ∧
    (∀ (i : Nat) (level : Img),
      (get_scaled_images ⟨150, 150, fun a b => a + b⟩ 3 (1 / 2))[i]? = some level →
      level = ⟨150, 150, fun a b => a + b⟩ → i = (3 : Int).toNat - 1) ∧
    ((3 : Int) = 1 → get_scaled_images ⟨150, 150, fun a b => a + b⟩ 3 (1 / 2) =
      [⟨150, 150, fun a b => a + b⟩])) :=
  ⟨⟨by decide, by decide, by decide, by norm_num, by norm_num⟩,
    get_scaled_images_count_original_last ⟨150, 150, fun a b => a + b⟩ 3 (1 / 2)
      (by decide) (by decide) (by decide) (by norm_num) (by norm_num)⟩

/-! ### Claim C7: resized level dimensions -/

/-- Claim C7: for a positive-size image, `count ≥ 1` and a shrink factor in
`(0, 1)`, the `i`-th pyramid level for `i ≤ count - 2` has dimensions
`(floor(width * inc^(count-1-i)), floor(height * inc^(count-1-i)))`. -/
theorem get_scaled_images_level_dims (img : Img) (count : Int) (inc : ℚ)
    (hW : 0 < img.width) (hH : 0 < img.height) (hc : 1 ≤ count)
    (h0 : 0 < inc) (h1 : inc < 1) (i : Nat) (hi : (i : Int) < count - 1) :
    ∃ level, (get_scaled_images img count inc)[i]? = some level ∧
      level.width = (⌊(img.width : ℚ) * inc ^ (count - 1 - (i : Int)).toNat⌋).toNat ∧
      level.height = (⌊(img.height : ℚ) * inc ^ (count - 1 - (i : Int)).toNat⌋).toNat := by
  have hi2 : i < (count - 1).toNat := by omega
  refine ⟨_, get_scaled_images_getElem?_lt hi2, ?_, ?_⟩
  · rw [resize_width, pytrunc_eq_floor (by positivity)]
  · rw [resize_height, pytrunc_eq_floor (by positivity)]

/-- Witness for C7 at a concrete input (`i = 0`, `count = 3`). -/
theorem get_scaled_images_level_dims_witness :
    ((0 : Nat) < 150 ∧ (0 : Nat) < 150 ∧ (1 : Int) ≤ 3 ∧
      (0 : ℚ) < 1 / 2 ∧ (1 / 2 : ℚ) < 1 ∧ ((0 : Nat) : Int) < 3 - 1) ∧
    (∃ level, (get_scaled_images ⟨150, 150, fun a b => a * b⟩ 3 (1 / 2))[(0 : Nat)]? =
        some level ∧
      level.width = (⌊(150 : ℚ) * (1 / 2 : ℚ) ^ ((3 : Int) - 1 - ((0 : Nat) : Int)).toNat⌋).toNat ∧
      level.height = (⌊(150 : ℚ) * (1 / 2 : ℚ) ^ ((3 : Int) - 1 - ((0 : Nat) : Int)).toNat⌋).toNat) :=
  ⟨⟨by decide, by decide, by decide, by norm_num, by norm_num, by decide⟩,
    get_scaled_images_level_dims ⟨150, 150, fun a b => a * b⟩ 3 (1 / 2)
      (by decide) (by decide) (by decide) (by norm_num) (by norm_num) 0 (by decide)⟩

/-! ### Claim C8: level sizes are non-decreasing toward the original -/

/-- Claim C8: for a shrink factor in `(0, 1]`, pyramid level sizes are
non-decreasing as the index increases toward the original: for `i ≤ j`,
level `i` is no wider and no taller than level `j`. -/
theorem get_scaled_images_sizes_monotone (img : Img) (count : Int) (inc : ℚ)
    (h0 : 0 < inc) (h1 : inc ≤ 1) :
    ∀ (i j : Nat) (li lj : Img), i ≤ j →
      (get_scaled_images img count inc)[i]? = some li →
      (get_scaled_images img count inc)[j]? = some lj →
      li.width ≤ lj.width ∧ li.height ≤ lj.height := by
  intro i j li lj hij hsi hsj
  have hlen := get_scaled_images_length img count inc
  have hjlen : j < (count - 1).toNat + 1 := by
    by_contra hge
    rw [List.getElem?_eq_none (by omega)] at hsj
    exact Option.noConfusion hsj
  rcases Nat.lt_or_ge j ((count - 1).toNat) with hj | hj
  · have hi2 : i < (count - 1).toNat := by omega
    rw [get_scaled_images_getElem?_lt hi2] at hsi
    rw [get_scaled_images_getElem?_lt hj] at hsj
    rw [← Option.some.inj hsi, ← Option.some.inj hsj, resize_width, resize_width,
      resize_height, resize_height]
    exact ⟨pytrunc_scaled_le_scaled h0 h1 img.width (by omega),
      pytrunc_scaled_le_scaled h0 h1 img.height (by omega)⟩
  · have hj2 : j = (count - 1).toNat := by omega
    subst hj2
    rw [get_scaled_images_getElem?_last] at hsj
    rw [← Option.some.inj hsj]
    rcases Nat.lt_or_ge i ((count - 1).toNat) with hi2 | hi2
    · rw [get_scaled_images_getElem?_lt hi2] at hsi
      rw [← Option.some.inj hsi, resize_width, resize_height]
      exact ⟨pytrunc_scaled_le_self h0 h1 img.width _,
        pytrunc_scaled_le_self h0 h1 img.height _⟩
    · have hi3 : i = (count - 1).toNat := by omega
      subst hi3
      rw [get_scaled_images_getElem?_last] at hsi
      rw [← Option.some.inj hsi]
      exact ⟨le_refl _, le_refl _⟩

/-- Witness for C8 at a concrete input (`i = 0`, `j = 2`, `count = 3`). -/
theorem get_scaled_images_sizes_monotone_witness :
    ((0 : ℚ) < 1 / 2 ∧ (1 / 2 : ℚ) ≤ 1 ∧ (0 : Nat) ≤ 2 ∧
      (get_scaled_images ⟨150, 150, fun a b => a + b⟩ 3 (1 / 2))[(0 : Nat)]? =
        some ((⟨150, 150, fun a b => a + b⟩ : Img).resize 37 37) ∧
      (get_scaled_images ⟨150, 150, fun a b => a + b⟩ 3 (1 / 2))[(2 : Nat)]? =
        some ⟨150, 150, fun a b => a + b⟩) ∧
    ((⟨150, 150, fun a b => a + b⟩ : Img).resize 37 37).width ≤
        (⟨150, 150, fun a b => a + b⟩ : Img).width ∧
    ((⟨150, 150, fun a b => a + b⟩ : Img).resize 37 37).height ≤
        (⟨150, 150, fun a b => a + b⟩ : Img).height := by
  have h4 : (get_scaled_images ⟨150, 150, fun a b => a + b⟩ 3 (1 / 2))[(0 : Nat)]? =
      some ((⟨150, 150, fun a b => a + b⟩ : Img).resize 37 37) := by
    simp [get_scaled_images, List.range_succ, Img.resize, pytrunc]
    norm_num [Int.floor_eq_iff, Int.toNat_ofNat]
    exact ⟨by decide, by simp⟩
  have h5 : (get_scaled_images ⟨150, 150, fun a b => a + b⟩ 3 (1 / 2))[(2 : Nat)]? =
      some ⟨150, 150, fun a b => a + b⟩ := by
    simp [get_scaled_images, List.range_succ]
  exact ⟨⟨by norm_num, by norm_num, by decide, h4, h5⟩,
    get_scaled_images_sizes_monotone ⟨150, 150, fun a b => a + b⟩ 3 (1 / 2)
      (by norm_num) (by norm_num) 0 2 _ _ (by decide) h4 h5⟩

/-! ### Claim C9: non-positive count still yields the single-element pyramid -/

/-- Claim C9: for `count ≤ 0` the resize loop runs zero times, no error is raised,
and `get_scaled_images` returns exactly `[img]` — length 1, not `count`. -/
theorem get_scaled_images_nonpositive_count (img : Img) (inc : ℚ) (count : Int)
    (hc : count ≤ 0) :
    get_scaled_images img count inc = [img] ∧
    (get_scaled_images img count inc).length = 1 := by
  have h0 : (count - 1).toNat = 0 := by omega
  constructor
  · rw [get_scaled_images, h0]
    rfl
  · rw [get_scaled_images_length, h0]

/-- Witness for C9 at `count = -3`. -/
theorem get_scaled_images_nonpositive_count_witness :
    ((-3 : Int) ≤ 0) ∧
    (get_scaled_images ⟨150, 150, fun a b => a + b⟩ (-3) (1 / 2) =
        [⟨150, 150, fun a b => a + b⟩] ∧
      (get_scaled_images ⟨150, 150, fun a b => a + b⟩ (-3) (1 / 2)).length = 1) :=
  ⟨by decide,
    get_scaled_images_nonpositive_count ⟨150, 150, fun a b => a + b⟩ (1 / 2) (-3) (by decide)⟩

/-! ### Claim C5: one CropSet per pyramid level, in order -/

/-- When `sliding_window` succeeds on every level, the `get_image_chunks`
loop succeeds and its result is index-aligned with the levels. -/
lemma crops_loop_ok (wd : Dim) (stride : Int) :
    ∀ levels : List Img,
      (∀ im ∈ levels, ∃ cr, sliding_window im wd stride = .ok cr) →
      ∃ L, crops_loop wd stride levels = .ok L ∧ L.length = levels.length ∧
        ∀ (i : Nat) (li : Img), levels[i]? = some li →
          ∃ ci, L[i]? = some ci ∧ sliding_window li wd stride = .ok ci := by
  intro levels
  induction levels with
  | nil =>
    intro _
    exact ⟨[], rfl, rfl, by intro i li hli; simp at hli⟩
  | cons im rest ih =>
    intro h
    obtain ⟨c, hc⟩ := h im (List.mem_cons_self im rest)
    obtain ⟨L, hL, hlen, hidx⟩ := ih (fun a ha => h a (List.mem_cons_of_mem im ha))
    refine ⟨c :: L, ?_, by simp [hlen], ?_⟩
    · rw [crops_loop, hc, hL]
    · intro i li hli
      cases i with
      | zero =>
        simp only [List.getElem?_cons_zero, Option.some.injEq] at hli
        exact ⟨c, by simp, hli ▸ hc⟩
      | succ n =>
        simp only [List.getElem?_cons_succ] at hli
        obtain ⟨ci, hci, hcs⟩ := hidx n li hli
        exact ⟨ci, by simpa using hci, hcs⟩

/-- Claim C5: when the stride is at least 1, `count ≥ 1`, and every pyramid level
is at least as large as the window, `get_image_chunks` succeeds with exactly
`count` CropSets, the `i`-th of which is `sliding_window` applied to the
`i`-th pyramid level; the last one is `sliding_window` on the unmodified
original image. -/
theorem get_image_chunks_per_level (img : Img) (wd : Dim) (stride : Int)
    (count : Int) (inc : ℚ) (hc : 1 ≤ count) (hs : 1 ≤ stride)
    (hfit : ∀ level ∈ get_scaled_images img count inc,
      wd.width ≤ level.width ∧ wd.height ≤ level.height) :
    ∃ L, get_image_chunks img wd stride count inc = .ok L ∧
      L.length = count.toNat ∧
      (∀ (i : Nat) (level : Img), (get_scaled_images img count inc)[i]? = some level →
        ∃ ci, L[i]? = some ci ∧ sliding_window level wd stride = .ok ci) ∧
      ∃ c, sliding_window img wd stride = .ok c ∧ L.getLast? = some c := by
  have hok : ∀ im ∈ get_scaled_images img count inc,
      ∃ cr, sliding_window im wd stride = .ok cr := by
    intro im him
    obtain ⟨h1, h2⟩ := hfit im him
    exact ⟨_, sliding_window_ok im wd stride h1 h2 (by omega)⟩
  obtain ⟨L, hL, hlen, hidx⟩ := crops_loop_ok wd stride _ hok
  refine ⟨L, hL, ?_, hidx, ?_⟩
  · rw [hlen, get_scaled_images_length]
    omega
  · obtain ⟨ci, hci, hcs⟩ :=
      hidx ((count - 1).toNat) img get_scaled_images_getElem?_last
    refine ⟨ci, hcs, ?_⟩
    rw [List.getLast?_eq_getElem?, hlen, get_scaled_images_length]
    simpa using hci

/-- Witness for C5 at a concrete input (`count = 1`, so the single pyramid
level is the original image). -/
theorem get_image_chunks_per_level_witness :
    ((1 : Int) ≤ 1 ∧ (1 : Int) ≤ 100 ∧
      (∀ level ∈ get_scaled_images ⟨150, 150, fun a b => a + b⟩ 1 (1 / 2),
        (100 : Nat) ≤ level.width ∧ (100 : Nat) ≤ level.height)) ∧
    (∃ L, get_image_chunks ⟨150, 150, fun a b => a + b⟩ ⟨100, 100⟩ 100 1 (1 / 2) = .ok L ∧
      L.length = (1 : Int).toNat ∧
      (∀ (i : Nat) (level : Img),
        (get_scaled_images ⟨150, 150, fun a b => a + b⟩ 1 (1 / 2))[i]? = some level →
        ∃ ci, L[i]? = some ci ∧
          sliding_window level ⟨100, 100⟩ 100 = .ok ci) ∧
      ∃ c, sliding_window ⟨150, 150, fun a b => a + b⟩ ⟨100, 100⟩ 100 = .ok c ∧
        L.getLast? = some c) :=
  ⟨⟨by decide, by decide, by
      intro level hlevel
      simp only [get_scaled_images] at hlevel
      norm_num at hlevel
      rw [hlevel]
      exact ⟨by decide, by decide⟩⟩,
    get_image_chunks_per_level ⟨150, 150, fun a b => a + b⟩ ⟨100, 100⟩ 100 1 (1 / 2)
      (by decide) (by decide)
      (by
        intro level hlevel
        simp only [get_scaled_images] at hlevel
        norm_num at hlevel
        rw [hlevel]
        exact ⟨by decide, by decide⟩)⟩

end ScaleAndSlide
